import Mathlib

/-!
Verification of the governance layer of the multiagent-advisor-app backend.

The definitions below are shallow embeddings of the Python source:

* `backend/utils/rate_limit_storage.py` (sliding-window rate limiting),
* `backend/middleware/rate_limiter.py` (key construction),
* `backend/services/cost_monitoring_service.py` (budget admission and debit),
* `backend/middleware/cost_monitoring_middleware.py` (dispatch, estimation),
* `backend/utils/token_calculator.py` (cost estimate dictionaries),
* `backend/agents/crews/crew_factory.py` (event-publishing wrapper),
* `backend/api/llm_events.py` (event stream generator).

Timestamps (Python `time.time()` floats) are modelled as rationals,
money amounts (Python floats) as rationals, Python dicts as association
lists, and raised exceptions as `Except` errors.
-/

namespace Advisor

/-- Python `int(x)` on a float: truncation toward zero. -/
def pyInt (q : ℚ) : ℤ :=
  if q < 0 then -Rat.floor (-q) else Rat.floor q

/-- Characters of a Python string; Lean `String` is used as the carrier. -/
def chars (s : String) : List Char := s.toList

/-- Whether `pat` is a leading segment of `l` (helper for substring search). -/
def hasPrefixL : List Char → List Char → Bool
  | [], _ => true
  | _ :: _, [] => false
  | p :: ps, c :: cs => p == c && hasPrefixL ps cs

/-- Python `pat in s` on strings: contiguous substring occurrence. -/
def hasSubstrL : List Char → List Char → Bool
  | l, pat =>
    match l with
    | [] => pat.isEmpty
    | _ :: cs => hasPrefixL pat l || hasSubstrL cs pat

/-- Python `pat in s` lifted to `String`. -/
def strContains (s pat : String) : Bool :=
  hasSubstrL (chars s) (chars pat)

/-- One replacement pass for `str.replace`, consuming fuel so the
recursion is structural; Python replaces non-overlapping occurrences
left to right. -/
def replaceFuel (rep pat : List Char) : ℕ → List Char → List Char
  | 0, l => l
  | _ + 1, [] => []
  | n + 1, c :: cs =>
    if hasPrefixL pat (c :: cs) then
      rep ++ replaceFuel rep pat n ((c :: cs).drop pat.length)
    else
      c :: replaceFuel rep pat n cs

/-- Python `s.replace(pat, rep)` for a non-empty pattern. -/
def strReplace (s pat rep : String) : String :=
  String.mk (replaceFuel (chars rep) (chars pat) (chars s).length (chars s))

/-- Python `s.lower()`. -/
def strLower (s : String) : String :=
  String.mk ((chars s).map Char.toLower)

end Advisor

namespace RateLimit

/-!
Embedding of `InMemoryRateLimitStorage.increment_and_check`
(`backend/utils/rate_limit_storage.py`) and of
`RateLimiter._build_redis_key` (`backend/middleware/rate_limiter.py`).
-/

/-- The `while queue and queue[0] < window_start: queue.popleft()` loop:
drop leading timestamps strictly older than `window_start`. -/
def pruneExpired (window_start : ℚ) : List ℚ → List ℚ
  | [] => []
  | t :: ts => if t < window_start then pruneExpired window_start ts else t :: ts

/-- Result of one `increment_and_check` call: the updated deque for the
key, the returned count and the returned allowed flag. -/
structure CheckResult where
  queue : List ℚ
  current_count : ℕ
  is_allowed : Bool
  deriving Repr, DecidableEq

/-- `InMemoryRateLimitStorage.increment_and_check` for a single key:
prune entries older than `now - window_seconds`; if the remaining count
is below the limit, append `now` and allow, else reject without
recording. -/
def increment_and_check (current_time window_seconds : ℚ) (limit : ℕ)
    (queue : List ℚ) : CheckResult :=
  let window_start := current_time - window_seconds
  let q := pruneExpired window_start queue
  if q.length < limit then
    ⟨q ++ [current_time], q.length + 1, true⟩
  else
    ⟨q, q.length, false⟩

/-- Run a chronological sequence of calls against one fixed key, starting
from deque `q`; returns the final deque together with the list of call
times that were admitted (allowed), in order. -/
def runCalls (window_seconds : ℚ) (limit : ℕ) : List ℚ → List ℚ → List ℚ × List ℚ
  | [], q => (q, [])
  | t :: ts, q =>
    let r := increment_and_check t window_seconds limit q
    let rest := runCalls window_seconds limit ts r.queue
    (rest.1, (if r.is_allowed then [t] else []) ++ rest.2)

/-- Spacing invariant: any `limit + 1` admitted timestamps, taken in
order, span strictly more than one window. -/
def Spaced (window_seconds : ℚ) (limit : ℕ) (adm : List ℚ) : Prop :=
  ∀ a l b, List.Sublist (a :: (l ++ [b])) adm → l.length + 2 = limit + 1 →
    a + window_seconds < b

def colonStr : String := ":"

def underscoreStr : String := "_"

def slashStr : String := "/"

/-- Endpoint sanitization from `RateLimiter._build_redis_key`:
`endpoint.replace("/", "_").replace(":", "_")`. -/
def safe_endpoint (endpoint : String) : String :=
  Advisor.strReplace (Advisor.strReplace endpoint slashStr underscoreStr)
    colonStr underscoreStr

/-- Python `int(time.time() // window_seconds)`: the window bucket id
used inside the Redis key; it changes at every window boundary. -/
def windowId (now : ℚ) (window_seconds : ℕ) : ℤ :=
  Rat.floor (now / (window_seconds : ℚ))

/-- `rate_limit_config.redis_key_prefix` from `config/rate_limits.py`. -/
def rateLimitKeyBase : String := "agent-advisor:rate_limit"

/-- `RateLimiter._build_redis_key`: format
`{base}:{identifier}:{safe_endpoint}:{window_seconds}:{window_id}`. -/
def _build_redis_key (identifier endpoint : String) (window_seconds : ℕ)
    (now : ℚ) : String :=
  rateLimitKeyBase ++ colonStr ++ identifier ++ colonStr
    ++ safe_endpoint endpoint ++ colonStr ++ toString window_seconds
    ++ colonStr ++ toString (windowId now window_seconds)

/-- The in-memory store: `defaultdict(deque)` keyed by the Redis key. -/
abbrev Store := List (String × List ℚ)

/-- Reading a key from the `defaultdict` (missing keys give an empty deque). -/
def storeGet (store : Store) (key : String) : List ℚ :=
  match store.find? (fun p => p.1 == key) with
  | some p => p.2
  | none => []

/-- Writing a key back into the store. -/
def storeSet : Store → String → List ℚ → Store
  | [], key, q => [(key, q)]
  | p :: ps, key, q =>
    if p.1 == key then (key, q) :: ps else p :: storeSet ps key q

/-- One rate-limit check exactly as the middleware performs it for a
fixed client identifier and endpoint: the key is rebuilt from the
current time (including the window bucket id) and then
`increment_and_check` runs against that key's deque. -/
def governedCall (identifier endpoint : String) (window_seconds limit : ℕ)
    (now : ℚ) (store : Store) : Store × Bool :=
  let key := _build_redis_key identifier endpoint window_seconds now
  let r := increment_and_check now (window_seconds : ℚ) limit
    (storeGet store key)
  (storeSet store key r.queue, r.is_allowed)

/-- Run a chronological call trace through the middleware's
key-construction scheme, collecting admitted call times. -/
def runGoverned (identifier endpoint : String) (window_seconds limit : ℕ) :
    List ℚ → Store → Store × List ℚ
  | [], store => (store, [])
  | t :: ts, store =>
    let r := governedCall identifier endpoint window_seconds limit t store
    let rest := runGoverned identifier endpoint window_seconds limit ts r.1
    (rest.1, (if r.2 then [t] else []) ++ rest.2)

def ipIdent : String := "ip:1.2.3.4"

def evalEndpoint : String := "/api/evaluate"

def keyBucket0 : String := "agent-advisor:rate_limit:ip:1.2.3.4:_api_evaluate:60:0"

def keyBucket1 : String := "agent-advisor:rate_limit:ip:1.2.3.4:_api_evaluate:60:1"

end RateLimit

namespace Budget

/-- A value inside a Python dict produced by the token calculator. -/
inductive PyVal
  | num (q : ℚ)
  | str (s : String)
  | sub (d : List (String × PyVal))

/-- A Python dict with string keys, as an ordered association list. -/
abbrev PyDict := List (String × PyVal)

/-- Python `d[k]` / `k in d`: first binding of `k`, if any. -/
def pyGet (d : PyDict) (k : String) : Option PyVal :=
  match d.find? (fun p => p.1 == k) with
  | some p => some p.2
  | none => none

/-- Python `d.get(k, dflt)` at a key holding a number (every key this is
applied to holds a number in the source dicts). -/
def getNum (d : PyDict) (k : String) (dflt : ℚ) : ℚ :=
  match pyGet d k with
  | some (.num q) => q
  | _ => dflt

/-- Python `d.get(k, dflt)` at a key holding a string. -/
def getStr (d : PyDict) (k : String) (dflt : String) : String :=
  match pyGet d k with
  | some (.str s) => s
  | _ => dflt

/-- The `user_budgets` row (`models/user.py`, class `UserBudget`).
Reset dates are modelled by their `.date()` projection as integer day
indices (the code only ever compares dates). -/
structure UserBudget where
  daily_limit_usd : ℚ
  monthly_limit_usd : ℚ
  hourly_limit : ℤ
  daily_spent_usd : ℚ
  monthly_spent_usd : ℚ
  requests_this_hour : ℤ
  daily_reset_date : Option ℤ
  monthly_reset_date : Option ℤ

/-- Outcome of the budget-row database round-trip inside
`can_user_afford_this_request` / `record_money_spent`:
`ok row` — the query answered; `queryFail` — the query raised.
Session acquisition itself (`next(get_db())`, i.e. `SessionLocal()`
over the hard-coded local SQLite URL) performs no I/O — SQLAlchemy
sessions connect lazily — so an unavailable store always surfaces as a
raising query with the local `db` already bound. -/
inductive DbMode
  | ok (row : Option UserBudget)
  | queryFail

def totalCostKey : String := "total_cost_usd"

def noCostMsg : String := "No cost estimated"

def noBudgetMsg : String := "No budget configuration found for user"

def budgetFailMsg : String := "Budget check failed"

def budgetPassMsg : String := "Budget check passed"

def dailyMention : String := "Daily budget exceeded"

def monthlyMention : String := "Monthly budget exceeded"

def remainingMid : String := ". Remaining: $"

def requestMid : String := ", Request: $"

def minusStr : String := "-"

def emptyStr : String := ""

def zeroDigit : String := "0"

def dotStr : String := "."

/-- Round half to even at integer precision (Python float formatting
and `round`). -/
def roundHalfEven (x : ℚ) : ℤ :=
  let f := Rat.floor x
  let r := x - f
  if r < 1/2 then f
  else if 1/2 < r then f + 1
  else if f % 2 = 0 then f else f + 1

/-- Python `round(x, ndigits)`. -/
def pyRound (ndigits : ℕ) (x : ℚ) : ℚ :=
  (roundHalfEven (x * 10 ^ ndigits) : ℚ) / 10 ^ ndigits

def pad2 (n : ℕ) : String :=
  if n < 10 then zeroDigit ++ toString n else toString n

/-- Python `f-string` formatting `:.2f` of a money amount. -/
def fmt2 (q : ℚ) : String :=
  let n := roundHalfEven (q * 100)
  (if n < 0 then minusStr else emptyStr)
    ++ toString (n.natAbs / 100) ++ dotStr ++ pad2 (n.natAbs % 100)

/-- Rejection reason `f"Daily budget exceeded. Remaining: ..."`. -/
def dailyExceededMsg (remaining request : ℚ) : String :=
  dailyMention ++ remainingMid ++ fmt2 remaining ++ requestMid ++ fmt2 request

/-- Rejection reason `f"Monthly budget exceeded. Remaining: ..."`. -/
def monthlyExceededMsg (remaining request : ℚ) : String :=
  monthlyMention ++ remainingMid ++ fmt2 remaining ++ requestMid ++ fmt2 request

/-- `CostMonitoringService.can_user_afford_this_request`.

On a raising query (`queryFail`) the `except` clause returns
`(False, "Budget check failed")` and the `finally` closes the bound
session without raising, so the deny verdict reaches the caller; the
function itself never lets an exception escape (the `Except.error`
case of the result type exists for the middleware's blanket handler
but is never produced here). -/
def can_user_afford_this_request (estimated_cost : Option PyDict)
    (db : DbMode) : Except String (Bool × String) :=
  match estimated_cost with
  | none => .ok (true, noCostMsg)
  | some d =>
    if d.isEmpty ∨ getNum d totalCostKey 0 ≤ 0 then .ok (true, noCostMsg)
    else
      match db with
      | .queryFail => .ok (false, budgetFailMsg)
      | .ok none => .ok (false, noBudgetMsg)
      | .ok (some user_budget) =>
        let total_cost := getNum d totalCostKey 0
        let daily_remaining :=
          user_budget.daily_limit_usd - user_budget.daily_spent_usd
        if total_cost > daily_remaining then
          .ok (false, dailyExceededMsg daily_remaining total_cost)
        else
          let monthly_remaining :=
            user_budget.monthly_limit_usd - user_budget.monthly_spent_usd
          if total_cost > monthly_remaining then
            .ok (false, monthlyExceededMsg monthly_remaining total_cost)
          else
            .ok (true, budgetPassMsg)

/-- Whether `record_money_spent` resets the daily counter: the stored
reset date exists and lies strictly before the current UTC date. -/
def crossedDaily (b : UserBudget) (current_date : ℤ) : Bool :=
  match b.daily_reset_date with
  | some r => decide (r < current_date)
  | none => false

/-- Whether `record_money_spent` resets the monthly counter: the stored
reset date lies strictly before the first day of the current month. -/
def crossedMonthly (b : UserBudget) (current_month : ℤ) : Bool :=
  match b.monthly_reset_date with
  | some r => decide (r < current_month)
  | none => false

/-- `CostMonitoringService.record_money_spent` (successful-commit path).
`current_date` is `datetime.utcnow().date()` and `current_month` the
first day of the current month, both as day indices. Returns the
Python return value together with the updated row (alert emission is a
log-only side effect and does not touch the row). -/
def record_money_spent (current_date current_month : ℤ) (actual_cost : ℚ)
    (row : Option UserBudget) : Bool × Option UserBudget :=
  if actual_cost ≤ 0 then (true, row)
  else
    match row with
    | none => (false, none)
    | some user_budget =>
      let b1 :=
        if crossedDaily user_budget current_date then
          { user_budget with
            daily_spent_usd := 0
            daily_reset_date := some current_date }
        else user_budget
      let b2 :=
        if crossedMonthly b1 current_month then
          { b1 with
            monthly_spent_usd := 0
            monthly_reset_date := some current_date }
        else b1
      (true, some { b2 with
        daily_spent_usd := b2.daily_spent_usd + actual_cost
        monthly_spent_usd := b2.monthly_spent_usd + actual_cost })

/-- A row of the `MODEL_PRICING` table (`config/cost_limits.py`). -/
structure Pricing where
  input_cost_per_1k : ℚ
  output_cost_per_1k : ℚ
  max_tokens : ℤ
  recommended_max_input : Option ℤ

def inputTokensKey : String := "input_tokens"

def estOutputTokensKey : String := "estimated_output_tokens"

def totalTokensKey : String := "total_tokens"

def inputCostKey : String := "input_cost_usd"

def outputCostKey : String := "output_cost_usd"

def modelKey : String := "model"

def pricingPer1kKey : String := "pricing_per_1k"

def inKey : String := "input"

def outKey : String := "output"

def modelLimitsKey : String := "model_limits"

def maxTokensKey : String := "max_tokens"

def recMaxInputKey : String := "recommended_max_input"

def estimatedAtKey : String := "estimated_at"

def currencyKey : String := "currency"

def usdStr : String := "USD"

def errorKey : String := "error"

def noPricingMsg : String := "Pricing information not available"

/-- `TokenCalculator._create_error_cost_estimate`: the fallback dict
when no pricing row exists for the model; all costs are zero. -/
def _create_error_cost_estimate (input_tokens output_tokens : ℕ)
    (model now_iso : String) : PyDict :=
  [(inputTokensKey, .num input_tokens),
   (estOutputTokensKey, .num output_tokens),
   (totalTokensKey, .num (input_tokens + output_tokens)),
   (inputCostKey, .num 0),
   (outputCostKey, .num 0),
   (totalCostKey, .num 0),
   (modelKey, .str model),
   (errorKey, .str noPricingMsg),
   (estimatedAtKey, .str now_iso),
   (currencyKey, .str usdStr)]

/-- `TokenCalculator.estimate_cost_detailed`. Token counting
(`count_tokens`, a tiktoken library call) is external, so the input
token count is a parameter; `now_iso` stands for
`datetime.utcnow().isoformat()`. The `//` in the fallback for
`recommended_max_input` is integer floor division on a positive count. -/
def estimate_cost_detailed (input_tokens estimated_output_tokens : ℕ)
    (model : String) (pricing : Option Pricing) (now_iso : String) : PyDict :=
  match pricing with
  | none => _create_error_cost_estimate input_tokens estimated_output_tokens
      model now_iso
  | some p =>
    let input_cost := ((input_tokens : ℚ) / 1000) * p.input_cost_per_1k
    let output_cost := ((estimated_output_tokens : ℚ) / 1000) * p.output_cost_per_1k
    let total_cost := input_cost + output_cost
    [(inputTokensKey, .num input_tokens),
     (estOutputTokensKey, .num estimated_output_tokens),
     (totalTokensKey, .num (input_tokens + estimated_output_tokens)),
     (inputCostKey, .num (pyRound 6 input_cost)),
     (outputCostKey, .num (pyRound 6 output_cost)),
     (totalCostKey, .num (pyRound 6 total_cost)),
     (modelKey, .str model),
     (pricingPer1kKey, .sub [(inKey, .num p.input_cost_per_1k),
       (outKey, .num p.output_cost_per_1k)]),
     (modelLimitsKey, .sub [(maxTokensKey, .num p.max_tokens),
       (recMaxInputKey, .num (match p.recommended_max_input with
         | some r => (r : ℚ)
         | none => ((p.max_tokens / 2 : ℤ) : ℚ)))]),
     (estimatedAtKey, .str now_iso),
     (currencyKey, .str usdStr)]

/-- The `MODEL_PRICING` row for `gpt-3.5-turbo`. -/
def gpt35Pricing : Pricing :=
  ⟨mkRat 15 10000, mkRat 2 1000, 4096, some 3000⟩

def gpt35Name : String := "gpt-3.5-turbo"

/-- The key the post-admission log line subscripts
(`estimated_cost['total_cost']` in `dispatch`) — absent from every
dict the token calculator produces. -/
def totalCostLogKey : String := "total_cost"

def xCostHeader : String := "X-Estimated-Cost-USD"

def xTokensHeader : String := "X-Estimated-Tokens"

def xModelHeader : String := "X-Model-Used"

def xNoteHeader : String := "X-Cost-Note"

def costNoteStr : String :=
  "Estimated cost - actual cost may vary based on AI response length"

def unknownStr : String := "unknown"

/-- `CostMonitoringMiddleware._add_cost_info_to_response` for a present
estimate: the headers added to a successful response (numeric rendering
of header values is abstracted by `toString`). -/
def _add_cost_info_to_response (d : PyDict) : List (String × String) :=
  [(xCostHeader, toString (getNum d totalCostKey 0)),
   (xTokensHeader, toString (getNum d totalTokensKey 0)),
   (xModelHeader, getStr d modelKey unknownStr),
   (xNoteHeader, costNoteStr)]

/-- Outcome of `CostMonitoringMiddleware.dispatch` for a governed
request, from the point where the budget check runs. -/
inductive Decision
  | budgetExceeded (reason : String)
  | proceedNoHeaders
  | proceedWithHeaders (headers : List (String × String))

/-- The admission segment of `CostMonitoringMiddleware.dispatch`:

* an exception escaping the budget check would hit the blanket
  `except Exception` and let the request proceed with no cost headers;
  the check returns its verdict without raising, so this branch is
  structural only;
* a negative verdict returns the 429 budget-exceeded response;
* on a positive verdict the log line
  `f"... ${estimated_cost['total_cost']:.4f}"` runs next: it raises
  `TypeError` when the estimate is `None` and `KeyError` when the dict
  lacks the key `total_cost`; either exception is swallowed by the
  blanket `except` and the request proceeds with no cost headers;
* only if that subscript succeeds does the flow reach
  `_add_cost_info_to_response`. -/
def dispatch_after_estimate (estimated_cost : Option PyDict)
    (db : DbMode) : Decision :=
  match can_user_afford_this_request estimated_cost db with
  | .error _ => .proceedNoHeaders
  | .ok (false, reason) => .budgetExceeded reason
  | .ok (true, _) =>
    match estimated_cost with
    | none => .proceedNoHeaders
    | some d =>
      match pyGet d totalCostLogKey with
      | none => .proceedNoHeaders
      | some _ => .proceedWithHeaders (_add_cost_info_to_response d)

/-- A one-entry estimate dict with a positive total cost, for
exercising the admission paths. -/
def estOneDollar : PyDict := [(totalCostKey, PyVal.num 1)]

end Budget

namespace Estimator

/-!
Embedding of `CostMonitoringMiddleware._estimate_response_length` and
its helpers (`backend/middleware/cost_monitoring_middleware.py`).
`count_tokens` is an external tiktoken call, so the input token count
appears as a parameter.
-/

/-- The `complexity_indicators` table of `_analyze_idea_complexity`. -/
def complexity_indicators : List (String × ℚ) :=
  [(r"analyze", 0.6), (r"breakdown", 0.5), (r"comprehensive", 0.7),
   (r"detailed", 0.4), (r"explain", 0.3), (r"compare", 0.4),
   (r"evaluate", 0.5), (r"summary", -0.2), (r"briefly", -0.3),
   (r"quick", -0.2), (r"simple", -0.2), (r"yes/no", -0.4)]

def questionMark : Char := Char.ofNat 63

/-- The complexity score of `_analyze_idea_complexity` before the final
clamp: base 1.0, length bonuses, cue-word weights, question-mark bonus. -/
def complexity_score_raw (idea : String) (input_tokens : ℕ) : ℚ :=
  let base : ℚ :=
    if input_tokens > 500 then 1 + 0.5
    else if input_tokens > 200 then 1 + 0.2
    else 1
  let idea_lower := Advisor.strLower idea
  let score := complexity_indicators.foldl
    (fun acc iw =>
      if Advisor.strContains idea_lower iw.1 then acc + iw.2 else acc) base
  let idea_marks := (Advisor.chars idea).count questionMark
  if idea_marks > 1 then score + 0.2 else score

/-- `CostMonitoringMiddleware._analyze_idea_complexity`: the raw score
clamped into `[0.5, 2.5]`. -/
def _analyze_idea_complexity (idea : String) (input_tokens : ℕ) : ℚ :=
  max 0.5 (min 2.5 (complexity_score_raw idea input_tokens))

/-- The `model_factors` table of `_get_model_response_factor`. -/
def model_factors : List (String × ℚ) :=
  [(r"gpt-4", 1.3), (r"gpt-4-turbo", 1.2), (r"gpt-4-32k", 1.4),
   (r"gpt-3.5-turbo", 1), (r"gpt-3.5-turbo-16k", 1.1),
   (r"text-davinci-003", 1.2), (r"text-davinci-002", 1.1)]

/-- `CostMonitoringMiddleware._get_model_response_factor`:
`model_factors.get(model, 1.0)`. -/
def _get_model_response_factor (model : String) : ℚ :=
  match model_factors.find? (fun p => p.1 == model) with
  | some p => p.2
  | none => 1

/-- `CostMonitoringMiddleware._estimate_response_length`: heuristic
base estimate clamped by `min_response = max(50, 0.2 * input)` and
`max_response = min(2000, 3.0 * input)`, then truncated with `int`. -/
def _estimate_response_length (user_idea model : String)
    (input_tokens : ℕ) : ℤ :=
  let complexity_factor := _analyze_idea_complexity user_idea input_tokens
  let model_response_factor := _get_model_response_factor model
  let base_response_tokens : ℤ :=
    Advisor.pyInt ((input_tokens : ℚ) * complexity_factor * model_response_factor)
  let min_response : ℚ := max 50 ((input_tokens : ℚ) * 0.2)
  let max_response : ℚ := min 2000 ((input_tokens : ℚ) * 3.0)
  let estimated_tokens : ℚ :=
    max min_response (min max_response (base_response_tokens : ℚ))
  Advisor.pyInt estimated_tokens

def ideaHi : String := "hi"

end Estimator

namespace Events

/-!
Embedding of the SSE generator of `events_stream`
(`backend/api/llm_events.py`).
-/

def completeSentinel : String := "__COMPLETE__"

def closeSentinel : String := "__CLOSE__"

/-- One iteration of the subscriber loop: whether
`request.is_disconnected()` answered true when polled, the raw message
text, and the parsed `payload.get("type")` (`none` when the message is
not a JSON dict — JSON parsing itself is external). -/
structure RawMsg where
  disconnected : Bool
  raw : String
  ptype : Option String

/-- A frame sent to the subscriber: a forwarded `data:` message, or the
final `event: complete` frame emitted on seeing a sentinel. -/
inductive Frame
  | data (raw : String)
  | completeEvent
  deriving DecidableEq

/-- The `event_generator` loop of `events_stream`: stop silently on
disconnect; on a `__COMPLETE__`/`__CLOSE__` sentinel, emit one final
complete frame and stop; otherwise forward the message and continue. -/
def event_generator : List RawMsg → List Frame
  | [] => []
  | m :: ms =>
    if m.disconnected then []
    else if m.ptype = some completeSentinel ∨ m.ptype = some closeSentinel then
      [Frame.completeEvent]
    else
      Frame.data m.raw :: event_generator ms

end Events

namespace Crew

/-!
Embedding of the event-publishing wrapper installed by
`CrewFactory._make_injecting_wrapper`
(`backend/agents/crews/crew_factory.py`): the sync wrapper detects a
top-level invocation through the `_current_agent_invocation`
`ContextVar`, publishes `agent_started` / `agent_finished` only at the
top level, and resets the variable afterwards.
-/

def agentStartedType : String := "agent_started"

def agentFinishedType : String := "agent_finished"

/-- A broker message published by the wrapper (the `agent`,
`graph_node` and `ts` fields do not affect the claim and are elided;
`invocation_id` stands for the minted `uuid.uuid4()`). -/
structure AgentEvent where
  etype : String
  request_id : String
  invocation_id : ℕ
  deriving DecidableEq

mutual
/-- A wrapped crew invocation together with the further wrapped
invocations its body performs. -/
inductive Call
  | call (children : CallList)

/-- A sequence of wrapped invocations run one after the other in the
same execution context. -/
inductive CallList
  | nil
  | cons (c : Call) (cs : CallList)
end

/-- The per-context state: the `_current_agent_invocation` `ContextVar`,
a supply of fresh invocation ids (standing in for `uuid.uuid4()`), and
the messages published to the broker so far, in order. -/
structure WrapState where
  current_agent_invocation : Option ℕ
  next_uuid : ℕ
  events : List AgentEvent
  deriving DecidableEq

mutual
/-- Run one wrapped invocation: mint an invocation id; if no invocation
is in flight in this context, set the `ContextVar`, publish
`agent_started` (provided a request id is known — `publish_event`
returns early on a missing request id), run the body, publish
`agent_finished`, and reset the `ContextVar` to its prior value;
a nested invocation just runs its body. -/
def runWrapped (request_id : String) : WrapState → Call → WrapState
  | s, .call children =>
    let top_level := s.current_agent_invocation.isNone
    let invocation_id := s.next_uuid
    let s1 : WrapState :=
      if top_level then
        { current_agent_invocation := some invocation_id
          next_uuid := s.next_uuid + 1
          events := s.events ++
            (if request_id.isEmpty then [] else
              [⟨agentStartedType, request_id, invocation_id⟩]) }
      else
        { s with next_uuid := s.next_uuid + 1 }
    let s2 := runBody request_id s1 children
    if top_level then
      { current_agent_invocation := s.current_agent_invocation
        next_uuid := s2.next_uuid
        events := s2.events ++
          (if request_id.isEmpty then [] else
            [⟨agentFinishedType, request_id, invocation_id⟩]) }
    else s2

/-- Run the wrapped invocations of a body in order. -/
def runBody (request_id : String) : WrapState → CallList → WrapState
  | s, .nil => s
  | s, .cons c cs => runBody request_id (runWrapped request_id s c) cs
end

def reqOne : String := "req-1"

/-- The four sequential top-level crew invocations that `build_graph`
performs for one external request on its happy path
(market → finance → product → summary). -/
def advisorGraphCrewCalls : CallList :=
  .cons (.call .nil) (.cons (.call .nil)
    (.cons (.call .nil) (.cons (.call .nil) .nil)))

end Crew

/-!
End of the embedding. Everything below proves properties of the
definitions above: helper lemmas first, then one theorem per claim with
its witness or counterexample.
-/

namespace Advisor

/-- `Rat.floor` agrees with the floor of the ordered field ℚ. -/
theorem rat_floor_eq_floor (q : ℚ) : Rat.floor q = ⌊q⌋ := by
  rw [Rat.floor_def', Rat.floor_def]

/-- Python `int` on a non-negative float is the floor. -/
theorem pyInt_of_nonneg (q : ℚ) (h : 0 ≤ q) : pyInt q = ⌊q⌋ := by
  rw [pyInt, if_neg (not_lt.mpr h), rat_floor_eq_floor]

/-- Floor distributes over `max`. -/
theorem floor_max_eq (a b : ℚ) : ⌊max a b⌋ = max ⌊a⌋ ⌊b⌋ := by
  rcases le_total a b with h | h
  · rw [max_eq_right h, max_eq_right (Int.floor_le_floor h)]
  · rw [max_eq_left h, max_eq_left (Int.floor_le_floor h)]

/-- Floor distributes over `min`. -/
theorem floor_min_eq (a b : ℚ) : ⌊min a b⌋ = min ⌊a⌋ ⌊b⌋ := by
  rcases le_total a b with h | h
  · rw [min_eq_left h, min_eq_left (Int.floor_le_floor h)]
  · rw [min_eq_right h, min_eq_right (Int.floor_le_floor h)]

end Advisor

namespace RateLimit

/-- On a chronologically ordered deque, the front-pruning loop agrees
with filtering out all expired entries. -/
theorem pruneExpired_eq_filter (w : ℚ) :
    ∀ l : List ℚ, l.Pairwise (· ≤ ·) →
      pruneExpired w l = l.filter (fun t => decide (w ≤ t))
  | [], _ => rfl
  | t :: ts, h => by
    rcases List.pairwise_cons.mp h with ⟨hts, htail⟩
    by_cases hlt : t < w
    · have hd : ¬ (w ≤ t) := not_le.mpr hlt
      rw [show pruneExpired w (t :: ts) = pruneExpired w ts from by
        simp [pruneExpired, hlt]]
      rw [pruneExpired_eq_filter w ts htail]
      simp [List.filter_cons, hd]
    · have hw : w ≤ t := not_lt.mp hlt
      have hrest : List.filter (fun x => decide (w ≤ x)) ts = ts :=
        List.filter_eq_self.mpr fun a ha => by
          simpa using le_trans hw (hts a ha)
      rw [show pruneExpired w (t :: ts) = t :: ts from by
        simp [pruneExpired, hlt]]
      simp [List.filter_cons, hw, hrest]

/-- Admitting a new timestamp `t` (possible only when fewer than `limit`
unexpired admitted entries remain) preserves the spacing invariant. -/
theorem Spaced.append_admit {W : ℚ} {L : ℕ} {adm : List ℚ} {t : ℚ}
    (hadm : adm.Pairwise (· ≤ ·)) (hsp : Spaced W L adm)
    (hcount : (adm.filter fun a => decide (t - W ≤ a)).length < L) :
    Spaced W L (adm ++ [t]) := by
  intro a l b hsub hlen
  rcases List.sublist_append_iff.mp hsub with ⟨l₁, l₂, heq, h₁, h₂⟩
  rcases List.sublist_singleton.mp h₂ with rfl | rfl
  · rw [List.append_nil] at heq
    exact hsp a l b (heq ▸ h₁) hlen
  · have heq' : (a :: l) ++ [b] = l₁ ++ [t] := by simpa using heq
    rcases List.append_inj' heq' rfl with ⟨rfl, hb⟩
    have hbt : b = t := by simpa using hb
    rw [← hbt] at hcount
    by_contra hcon
    have hge : b - W ≤ a := by linarith [not_lt.mp hcon]
    have hsortal : (a :: l).Pairwise (· ≤ ·) := List.Pairwise.sublist h₁ hadm
    have hall : ∀ x ∈ a :: l, decide (b - W ≤ x) = true := by
      intro x hx
      rcases List.mem_cons.mp hx with rfl | hx'
      · simpa using hge
      · have := (List.pairwise_cons.mp hsortal).1 x hx'
        simpa using le_trans hge this
    have hfil : (a :: l).filter (fun x => decide (b - W ≤ x)) = a :: l :=
      List.filter_eq_self.mpr hall
    have hsubf := List.Sublist.filter (fun x => decide (b - W ≤ x)) h₁
    rw [hfil] at hsubf
    have hlg := hsubf.length_le
    simp only [List.length_cons] at hlg
    omega

/-- Any list of length at least two splits as head, middle, last. -/
theorem exists_head_last_decomp {α : Type} (s : List α) (h : 2 ≤ s.length) :
    ∃ a l b, s = a :: (l ++ [b]) ∧ l.length + 2 = s.length := by
  match s, h with
  | a :: t, h =>
    have ht : t ≠ [] := by
      intro hnil
      rw [hnil] at h
      simp at h
    refine ⟨a, t.dropLast, t.getLast ht, ?_, ?_⟩
    · rw [List.dropLast_append_getLast ht]
    · have := List.length_dropLast t
      have htl : 1 ≤ t.length := List.length_pos.mpr ht
      simp only [List.length_cons, this]
      omega

/-- A spaced, admitted list has at most `limit` entries inside any
trailing window `[T - W, T]` (for a positive limit). -/
theorem Spaced.count_window {W : ℚ} {L : ℕ} (hL : 1 ≤ L) {adm : List ℚ}
    (hsp : Spaced W L adm) (T : ℚ) :
    adm.countP (fun a => decide (T - W ≤ a) && decide (a ≤ T)) ≤ L := by
  by_contra hcon
  set p : ℚ → Bool := fun a => decide (T - W ≤ a) && decide (a ≤ T) with hp
  have hlen : L + 1 ≤ (adm.filter p).length := by
    rw [← List.countP_eq_length_filter]
    omega
  set s : List ℚ := (adm.filter p).take (L + 1) with hs
  have hslen : s.length = L + 1 := by
    rw [hs, List.length_take]
    omega
  have hssub : List.Sublist s adm :=
    (List.take_sublist _ _).trans (List.filter_sublist _)
  have hsp2 : ∀ x ∈ s, p x = true := by
    intro x hx
    have : x ∈ adm.filter p := List.take_subset _ _ hx
    exact (List.mem_filter.mp this).2
  rcases exists_head_last_decomp s (by omega) with ⟨a, l, b, hdecomp, hlens⟩
  have hamem : a ∈ s := by rw [hdecomp]; simp
  have hbmem : b ∈ s := by rw [hdecomp]; simp
  have hpa := hsp2 a hamem
  have hpb := hsp2 b hbmem
  rw [hp] at hpa hpb
  simp only [Bool.and_eq_true, decide_eq_true_eq] at hpa hpb
  have hspace : a + W < b := by
    refine hsp a l b (hdecomp ▸ hssub) ?_
    omega
  linarith [hpa.1, hpb.2]

/-- The main inductive invariant: processing a chronological trace from
a state in which `adm` is the (sorted, spaced) list of previously
admitted timestamps and the deque holds exactly its unexpired part,
the full admitted list stays sorted and spaced. -/
theorem runCalls_invariant (W : ℚ) (hW : 0 ≤ W) (L : ℕ) :
    ∀ (times adm : List ℚ) (tprev : ℚ),
      times.Pairwise (· ≤ ·) →
      (∀ t ∈ times, tprev ≤ t) →
      adm.Pairwise (· ≤ ·) →
      (∀ a ∈ adm, a ≤ tprev) →
      Spaced W L adm →
      ((adm ++ (runCalls W L times
          (adm.filter fun a => decide (tprev - W ≤ a))).2).Pairwise (· ≤ ·)
        ∧ Spaced W L (adm ++ (runCalls W L times
          (adm.filter fun a => decide (tprev - W ≤ a))).2))
  | [], adm, tprev, _, _, hadm, _, hsp => by
    simp only [runCalls, List.append_nil]
    exact ⟨hadm, hsp⟩
  | t :: ts, adm, tprev, htimes, hlow, hadm, hup, hsp => by
    rcases List.pairwise_cons.mp htimes with ⟨hts_ge, hts⟩
    have htprev_t : tprev ≤ t := hlow t (by simp)
    have hqsorted : (adm.filter fun a => decide (tprev - W ≤ a)).Pairwise (· ≤ ·) :=
      hadm.filter _
    have hprune : pruneExpired (t - W) (adm.filter fun a => decide (tprev - W ≤ a))
        = adm.filter fun a => decide (t - W ≤ a) := by
      rw [pruneExpired_eq_filter _ _ hqsorted, List.filter_filter]
      refine List.filter_congr fun a _ => ?_
      by_cases h : t - W ≤ a
      · have h2 : tprev - W ≤ a := le_trans (by linarith) h
        simp [h, h2]
      · simp [h]
    by_cases hcount : (adm.filter fun a => decide (t - W ≤ a)).length < L
    · -- admitted: the deque gains `t` and the admitted list gains `t`
      have hstep : runCalls W L (t :: ts)
            (adm.filter fun a => decide (tprev - W ≤ a))
          = ((runCalls W L ts ((adm ++ [t]).filter fun a => decide (t - W ≤ a))).1,
             [t] ++ (runCalls W L ts
               ((adm ++ [t]).filter fun a => decide (t - W ≤ a))).2) := by
        have hq' : (adm.filter fun a => decide (t - W ≤ a)) ++ [t]
            = (adm ++ [t]).filter fun a => decide (t - W ≤ a) := by
          rw [List.filter_append]
          congr 1
          rw [List.filter_cons]
          simp [show t - W ≤ t by linarith]
        simp only [runCalls, increment_and_check, hprune, if_pos hcount, hq']
        simp
      rw [hstep]
      have hadm' : (adm ++ [t]).Pairwise (· ≤ ·) := by
        rw [List.pairwise_append]
        refine ⟨hadm, by simp, ?_⟩
        intro a ha b hb
        rw [List.mem_singleton.mp hb]
        exact le_trans (hup a ha) htprev_t
      have hup' : ∀ a ∈ adm ++ [t], a ≤ t := by
        intro a ha
        rcases List.mem_append.mp ha with h | h
        · exact le_trans (hup a h) htprev_t
        · rw [List.mem_singleton.mp h]
      have hsp' : Spaced W L (adm ++ [t]) :=
        Spaced.append_admit hadm hsp hcount
      have hrec := runCalls_invariant W hW L ts (adm ++ [t]) t hts hts_ge
        hadm' hup' hsp'
      constructor
      · have := hrec.1
        rwa [List.append_assoc] at this
      · have := hrec.2
        rwa [List.append_assoc] at this
    · -- rejected: deque pruned, nothing admitted
      have hstep : runCalls W L (t :: ts)
            (adm.filter fun a => decide (tprev - W ≤ a))
          = ((runCalls W L ts (adm.filter fun a => decide (t - W ≤ a))).1,
             (runCalls W L ts (adm.filter fun a => decide (t - W ≤ a))).2) := by
        simp only [runCalls, increment_and_check, hprune, if_neg hcount]
        simp
      rw [hstep]
      have hup' : ∀ a ∈ adm, a ≤ t := fun a ha => le_trans (hup a ha) htprev_t
      exact runCalls_invariant W hW L ts adm t hts hts_ge hadm hup' hsp

/-- With `limit = 0` nothing is ever admitted. -/
theorem runCalls_limit_zero (W : ℚ) :
    ∀ (times q : List ℚ), (runCalls W 0 times q).2 = []
  | [], _ => rfl
  | t :: ts, q => by
    simp only [runCalls, increment_and_check]
    have : ¬ ((pruneExpired (t - W) q).length < 0) := by omega
    simp only [if_neg this]
    simpa using runCalls_limit_zero W ts _

/-- The empty admitted list is trivially spaced. -/
theorem spaced_nil (W : ℚ) (L : ℕ) : Spaced W L ([] : List ℚ) := by
  intro a l b hsub _
  have := List.sublist_nil.mp hsub
  simp at this

/-- `Rat.floor` agrees with the floor of the ordered field ℚ. -/
theorem rat_floor_eq (q : ℚ) : Rat.floor q = ⌊q⌋ := by
  rw [Rat.floor_def', Rat.floor_def]

end RateLimit

/-- C1 (amended, storage level): for one fixed key handled by
`InMemoryRateLimitStorage.increment_and_check` with window `W ≥ 0` and
limit `L`, any chronological call trace has at most `L` admitted calls
whose admission times fall within any trailing window `[T - W, T]`,
regardless of the arrival pattern. -/
theorem c1_sliding_window_fixed_key_bound (W : ℚ) (hW : 0 ≤ W) (L : ℕ)
    (times : List ℚ) (hchrono : times.Pairwise (· ≤ ·)) (T : ℚ) :
    (RateLimit.runCalls W L times []).2.countP
      (fun a => decide (T - W ≤ a) && decide (a ≤ T)) ≤ L := by
  rcases Nat.eq_zero_or_pos L with rfl | hL
  · rw [RateLimit.runCalls_limit_zero]
    simp
  · cases times with
    | nil => simp [RateLimit.runCalls]
    | cons t ts =>
      rcases List.pairwise_cons.mp hchrono with ⟨hts_ge, _⟩
      have hlow : ∀ x ∈ t :: ts, t ≤ x := by
        intro x hx
        rcases List.mem_cons.mp hx with rfl | hx'
        · exact le_refl x
        · exact hts_ge x hx'
      have hinv := RateLimit.runCalls_invariant W hW L (t :: ts) [] t
        hchrono hlow (by simp) (by simp) (RateLimit.spaced_nil W L)
      simp only [List.filter_nil, List.nil_append] at hinv
      exact RateLimit.Spaced.count_window hL hinv.2 T

/-- Witness for C1 at window 60, limit 2, trace `[0, 30, 45, 70]`. -/
theorem c1_sliding_window_fixed_key_bound_witness :
    (0 : ℚ) ≤ 60
    ∧ List.Pairwise (fun a b : ℚ => a ≤ b) [0, 30, 45, 70]
    ∧ (RateLimit.runCalls 60 2 [0, 30, 45, 70] []).2.countP
        (fun a => decide ((70 : ℚ) - 60 ≤ a) && decide (a ≤ (70 : ℚ))) ≤ 2 :=
  ⟨by decide, by decide,
    c1_sliding_window_fixed_key_bound 60 (by decide) 2 [0, 30, 45, 70]
      (by decide) 70⟩

/-- C1 counterexample: with keys built by
`RateLimiter._build_redis_key`, the window bucket id embedded in the
key changes at the window boundary, so one client admits four calls
(at 58, 59, 60 and 61 seconds) against limit 2 with window 60: all
four admission times lie in the trailing window `[1, 61]`. -/
theorem c1_counterexample_bucketed_keys_exceed_limit :
    List.Pairwise (fun a b : ℚ => a ≤ b) [58, 59, 60, 61]
    ∧ (RateLimit.runGoverned RateLimit.ipIdent RateLimit.evalEndpoint
        60 2 [58, 59, 60, 61] []).2 = [58, 59, 60, 61]
    ∧ 2 < ((RateLimit.runGoverned RateLimit.ipIdent RateLimit.evalEndpoint
        60 2 [58, 59, 60, 61] []).2.countP
          (fun a => decide ((61 : ℚ) - 60 ≤ a) && decide (a ≤ (61 : ℚ)))) := by
  have hid58 : RateLimit.windowId 58 60 = 0 := by
    simp only [RateLimit.windowId, RateLimit.rat_floor_eq]
    norm_num
  have hid59 : RateLimit.windowId 59 60 = 0 := by
    simp only [RateLimit.windowId, RateLimit.rat_floor_eq]
    norm_num
  have hid60 : RateLimit.windowId 60 60 = 1 := by
    simp only [RateLimit.windowId, RateLimit.rat_floor_eq]
    norm_num
  have hid61 : RateLimit.windowId 61 60 = 1 := by
    simp only [RateLimit.windowId, RateLimit.rat_floor_eq]
    norm_num
  have k58 : RateLimit._build_redis_key RateLimit.ipIdent
      RateLimit.evalEndpoint 60 58 = RateLimit.keyBucket0 := by
    simp only [RateLimit._build_redis_key, hid58]
    decide
  have k59 : RateLimit._build_redis_key RateLimit.ipIdent
      RateLimit.evalEndpoint 60 59 = RateLimit.keyBucket0 := by
    simp only [RateLimit._build_redis_key, hid59]
    decide
  have k60 : RateLimit._build_redis_key RateLimit.ipIdent
      RateLimit.evalEndpoint 60 60 = RateLimit.keyBucket1 := by
    simp only [RateLimit._build_redis_key, hid60]
    decide
  have k61 : RateLimit._build_redis_key RateLimit.ipIdent
      RateLimit.evalEndpoint 60 61 = RateLimit.keyBucket1 := by
    simp only [RateLimit._build_redis_key, hid61]
    decide
  have hrun : (RateLimit.runGoverned RateLimit.ipIdent RateLimit.evalEndpoint
      60 2 [58, 59, 60, 61] []).2 = [58, 59, 60, 61] := by
    norm_num [RateLimit.runGoverned, RateLimit.governedCall, k58, k59, k60,
      k61, RateLimit.storeGet, RateLimit.storeSet,
      RateLimit.increment_and_check, RateLimit.pruneExpired,
      RateLimit.keyBucket0, RateLimit.keyBucket1, List.find?]
  refine ⟨by decide, hrun, ?_⟩
  rw [hrun]
  norm_num [List.countP_cons]

namespace Budget

/-- The monthly-reset test only reads `monthly_reset_date`, which the
daily reset does not touch. -/
theorem crossedMonthly_daily_reset (b : UserBudget) (cd cm : ℤ) :
    crossedMonthly
      { b with daily_spent_usd := 0, daily_reset_date := some cd } cm
      = crossedMonthly b cm := rfl

/-- No dict produced by `estimate_cost_detailed` (priced or fallback)
contains the key `total_cost`; only `total_cost_usd` is present. -/
theorem pyGet_total_cost_log_none (input_tokens est_out : ℕ)
    (model now_iso : String) (pricing : Option Pricing) :
    pyGet (estimate_cost_detailed input_tokens est_out model pricing now_iso)
      totalCostLogKey = none := by
  cases pricing <;> rfl

end Budget

/-- C2 counterexample: a user with no `UserBudget` row is not denied
when the pre-flight estimate is absent; `can_user_afford_this_request`
answers allowed with reason `No cost estimated` before any budget-row
lookup, contradicting the claim's "regardless of the estimated cost". -/
theorem c2_counterexample_no_budget_user_allowed_without_estimate :
    Budget.can_user_afford_this_request none (Budget.DbMode.ok none)
      = Except.ok (true, Budget.noCostMsg) := rfl

/-- C2 (amended): for every request whose pre-flight estimate is present
with a positive `total_cost_usd`, a user without a `UserBudget` row is
denied with the no-budget-configured reason. -/
theorem c2_no_budget_denied_for_positive_estimate (d : Budget.PyDict)
    (hpos : 0 < Budget.getNum d Budget.totalCostKey 0) :
    Budget.can_user_afford_this_request (some d) (Budget.DbMode.ok none)
      = Except.ok (false, Budget.noBudgetMsg) := by
  have hcond : ¬ (d.isEmpty = true ∨ Budget.getNum d Budget.totalCostKey 0 ≤ 0) := by
    rintro (h | h)
    · rw [List.isEmpty_iff.mp h] at hpos
      have h0 : Budget.getNum [] Budget.totalCostKey 0 = 0 := rfl
      rw [h0] at hpos
      exact lt_irrefl 0 hpos
    · linarith
  simp only [Budget.can_user_afford_this_request, if_neg hcond]

/-- Witness for C2 at a one-dollar estimate. -/
theorem c2_no_budget_denied_for_positive_estimate_witness :
    (0 : ℚ) < Budget.getNum Budget.estOneDollar Budget.totalCostKey 0
    ∧ Budget.can_user_afford_this_request (some Budget.estOneDollar)
        (Budget.DbMode.ok none) = Except.ok (false, Budget.noBudgetMsg) :=
  ⟨by decide,
    c2_no_budget_denied_for_positive_estimate Budget.estOneDollar (by decide)⟩

/-- C3: with a configured budget row and a positive actual cost `c`,
`record_money_spent` reports success and each tracked period counter
becomes its prior value plus `c`, unless that period's boundary was
crossed, in which case it is reset and becomes exactly `c`. -/
theorem c3_record_money_spent_period_update (current_date current_month : ℤ)
    (c : ℚ) (hc : 0 < c) (b : Budget.UserBudget) :
    (Budget.record_money_spent current_date current_month c (some b)).1 = true
    ∧ (Budget.crossedDaily b current_date = false →
        (Budget.record_money_spent current_date current_month c (some b)).2.map
          Budget.UserBudget.daily_spent_usd = some (b.daily_spent_usd + c))
    ∧ (Budget.crossedDaily b current_date = true →
        (Budget.record_money_spent current_date current_month c (some b)).2.map
          Budget.UserBudget.daily_spent_usd = some c)
    ∧ (Budget.crossedMonthly b current_month = false →
        (Budget.record_money_spent current_date current_month c (some b)).2.map
          Budget.UserBudget.monthly_spent_usd = some (b.monthly_spent_usd + c))
    ∧ (Budget.crossedMonthly b current_month = true →
        (Budget.record_money_spent current_date current_month c (some b)).2.map
          Budget.UserBudget.monthly_spent_usd = some c) := by
  have hni : ¬ (c ≤ 0) := not_le.mpr hc
  cases hd : Budget.crossedDaily b current_date <;>
    cases hm : Budget.crossedMonthly b current_month <;>
      refine ⟨by simp [Budget.record_money_spent, hni], ?_, ?_, ?_, ?_⟩ <;>
        intro h <;>
          first
            | exact Bool.noConfusion h
            | simp [Budget.record_money_spent, hni, hd, hm,
                Budget.crossedMonthly_daily_reset]

/-- Witness for C3: daily boundary crossed, monthly not. -/
theorem c3_record_money_spent_period_update_witness :
    (0 : ℚ) < 2
    ∧ Budget.crossedDaily ⟨10, 100, 0, 3, 7, 0, some 8, some 5⟩ 9 = true
    ∧ Budget.crossedMonthly ⟨10, 100, 0, 3, 7, 0, some 8, some 5⟩ 4 = false
    ∧ (Budget.record_money_spent 9 4 2 (some ⟨10, 100, 0, 3, 7, 0, some 8, some 5⟩)).2.map
        Budget.UserBudget.daily_spent_usd = some 2
    ∧ (Budget.record_money_spent 9 4 2 (some ⟨10, 100, 0, 3, 7, 0, some 8, some 5⟩)).2.map
        Budget.UserBudget.monthly_spent_usd = some (7 + 2) :=
  ⟨by decide, by decide, by decide,
    (c3_record_money_spent_period_update 9 4 2 (by decide)
      ⟨10, 100, 0, 3, 7, 0, some 8, some 5⟩).2.2.1 (by decide),
    (c3_record_money_spent_period_update 9 4 2 (by decide)
      ⟨10, 100, 0, 3, 7, 0, some 8, some 5⟩).2.2.2.1 (by decide)⟩

/-- A positive `total_cost_usd` rules out the no-cost short-circuit of
the budget check. -/
theorem Budget.not_skip_cond (d : Budget.PyDict)
    (hpos : 0 < Budget.getNum d Budget.totalCostKey 0) :
    ¬ (d.isEmpty = true ∨ Budget.getNum d Budget.totalCostKey 0 ≤ 0) := by
  rintro (h | h)
  · rw [List.isEmpty_iff.mp h] at hpos
    have h0 : Budget.getNum [] Budget.totalCostKey 0 = 0 := rfl
    rw [h0] at hpos
    exact lt_irrefl 0 hpos
  · linarith

/-- C4: with a positive estimate and a configured budget row, the budget
check allows the request iff the estimated cost fits within what
remains of every configured period budget; a daily overrun produces the
daily reason — whose text begins with `Daily budget exceeded` — and
only with the daily budget respected does a monthly overrun produce the
monthly reason. -/
theorem c4_can_afford_iff_within_all_periods (d : Budget.PyDict)
    (b : Budget.UserBudget)
    (hpos : 0 < Budget.getNum d Budget.totalCostKey 0) :
    (Budget.can_user_afford_this_request (some d) (Budget.DbMode.ok (some b))
        = Except.ok (true, Budget.budgetPassMsg)
      ↔ (Budget.getNum d Budget.totalCostKey 0
            ≤ b.daily_limit_usd - b.daily_spent_usd
          ∧ Budget.getNum d Budget.totalCostKey 0
            ≤ b.monthly_limit_usd - b.monthly_spent_usd))
    ∧ (b.daily_limit_usd - b.daily_spent_usd
          < Budget.getNum d Budget.totalCostKey 0 →
        Budget.can_user_afford_this_request (some d) (Budget.DbMode.ok (some b))
          = Except.ok (false, Budget.dailyExceededMsg
              (b.daily_limit_usd - b.daily_spent_usd)
              (Budget.getNum d Budget.totalCostKey 0))
        ∧ ∃ tail, Budget.dailyExceededMsg
              (b.daily_limit_usd - b.daily_spent_usd)
              (Budget.getNum d Budget.totalCostKey 0)
            = Budget.dailyMention ++ tail)
    ∧ (Budget.getNum d Budget.totalCostKey 0
          ≤ b.daily_limit_usd - b.daily_spent_usd →
       b.monthly_limit_usd - b.monthly_spent_usd
          < Budget.getNum d Budget.totalCostKey 0 →
        Budget.can_user_afford_this_request (some d) (Budget.DbMode.ok (some b))
          = Except.ok (false, Budget.monthlyExceededMsg
              (b.monthly_limit_usd - b.monthly_spent_usd)
              (Budget.getNum d Budget.totalCostKey 0))) := by
  simp only [Budget.can_user_afford_this_request,
    if_neg (Budget.not_skip_cond d hpos)]
  refine ⟨?_, ?_, ?_⟩
  · by_cases h1 : Budget.getNum d Budget.totalCostKey 0
        > b.daily_limit_usd - b.daily_spent_usd
    · rw [if_pos h1]
      constructor
      · intro he
        simp at he
      · rintro ⟨ha, _⟩
        exact absurd h1 (not_lt.mpr ha)
    · rw [if_neg h1]
      by_cases h2 : Budget.getNum d Budget.totalCostKey 0
          > b.monthly_limit_usd - b.monthly_spent_usd
      · rw [if_pos h2]
        constructor
        · intro he
          simp at he
        · rintro ⟨_, hb⟩
          exact absurd h2 (not_lt.mpr hb)
      · rw [if_neg h2]
        constructor
        · intro _
          exact ⟨not_lt.mp h1, not_lt.mp h2⟩
        · intro _
          rfl
  · intro hd1
    refine ⟨by rw [if_pos hd1], ?_⟩
    exact ⟨Budget.remainingMid
        ++ (Budget.fmt2 (b.daily_limit_usd - b.daily_spent_usd)
          ++ (Budget.requestMid
            ++ Budget.fmt2 (Budget.getNum d Budget.totalCostKey 0))),
      by simp [Budget.dailyExceededMsg, String.append_assoc]⟩
  · intro hd1 hm1
    rw [if_neg (not_lt.mpr hd1), if_pos hm1]

/-- Witness for C4 at the claim's boundary: daily limit 5.00, daily
spent 4.999, request estimated at 0.01 — denied with the daily reason. -/
theorem c4_can_afford_iff_within_all_periods_witness :
    (0 : ℚ) < Budget.getNum [(Budget.totalCostKey, Budget.PyVal.num 0.01)]
        Budget.totalCostKey 0
    ∧ ((5 : ℚ) - 4.999
        < Budget.getNum [(Budget.totalCostKey, Budget.PyVal.num 0.01)]
            Budget.totalCostKey 0)
    ∧ (Budget.can_user_afford_this_request
          (some [(Budget.totalCostKey, Budget.PyVal.num 0.01)])
          (Budget.DbMode.ok (some ⟨5, 100, 0, 4.999, 0, 0, some 0, some 0⟩))
        = Except.ok (false, Budget.dailyExceededMsg ((5 : ℚ) - 4.999)
            (Budget.getNum [(Budget.totalCostKey, Budget.PyVal.num 0.01)]
              Budget.totalCostKey 0))
      ∧ ∃ tail, Budget.dailyExceededMsg ((5 : ℚ) - 4.999)
            (Budget.getNum [(Budget.totalCostKey, Budget.PyVal.num 0.01)]
              Budget.totalCostKey 0)
          = Budget.dailyMention ++ tail) := by
  have hget : Budget.getNum [(Budget.totalCostKey, Budget.PyVal.num 0.01)]
      Budget.totalCostKey 0 = 0.01 := rfl
  refine ⟨?_, ?_, ?_⟩
  · rw [hget]
    norm_num
  · rw [hget]
    norm_num
  · exact (c4_can_afford_iff_within_all_periods
      [(Budget.totalCostKey, Budget.PyVal.num 0.01)]
      ⟨5, 100, 0, 4.999, 0, 0, some 0, some 0⟩
      (by rw [hget]; norm_num)).2.1 (by rw [hget]; norm_num)

/-- C6: whenever the budget store is unavailable during the budget
check, the failure surfaces in the query round-trip (session creation
is lazy and performs no I/O over the local SQLite URL), the check
returns the deny verdict `(False, "Budget check failed")`, and the
middleware sends the 429 budget-rejection response rather than letting
the governed request execute — fail-closed, for every request with a
positive estimated cost. -/
theorem c6_budget_store_unavailable_denies (d : Budget.PyDict)
    (hpos : 0 < Budget.getNum d Budget.totalCostKey 0) :
    Budget.can_user_afford_this_request (some d) Budget.DbMode.queryFail
      = Except.ok (false, Budget.budgetFailMsg)
    ∧ Budget.dispatch_after_estimate (some d) Budget.DbMode.queryFail
      = Budget.Decision.budgetExceeded Budget.budgetFailMsg := by
  have h1 : Budget.can_user_afford_this_request (some d) Budget.DbMode.queryFail
      = Except.ok (false, Budget.budgetFailMsg) := by
    simp only [Budget.can_user_afford_this_request,
      if_neg (Budget.not_skip_cond d hpos)]
  refine ⟨h1, ?_⟩
  unfold Budget.dispatch_after_estimate
  rw [h1]

/-- Witness for C6 at a one-dollar estimate with the store down. -/
theorem c6_budget_store_unavailable_denies_witness :
    (0 : ℚ) < Budget.getNum Budget.estOneDollar Budget.totalCostKey 0
    ∧ Budget.can_user_afford_this_request (some Budget.estOneDollar)
        Budget.DbMode.queryFail = Except.ok (false, Budget.budgetFailMsg)
    ∧ Budget.dispatch_after_estimate (some Budget.estOneDollar)
        Budget.DbMode.queryFail
      = Budget.Decision.budgetExceeded Budget.budgetFailMsg :=
  ⟨by decide,
    (c6_budget_store_unavailable_denies Budget.estOneDollar (by decide)).1,
    (c6_budget_store_unavailable_denies Budget.estOneDollar (by decide)).2⟩

/-- C8: for every estimate dict produced by
`TokenCalculator.estimate_cost_detailed`, if the budget check passes
then the dispatch never reaches `_add_cost_info_to_response`: the
post-admission log line subscripts the absent key `total_cost`, the
raised `KeyError` is swallowed by the blanket `except`, and the
response is returned without the `X-Estimated-Cost-USD`,
`X-Estimated-Tokens` and `X-Model-Used` headers. -/
theorem c8_success_response_lacks_cost_headers
    (input_tokens est_out : ℕ) (model now_iso : String)
    (pricing : Option Budget.Pricing) (db : Budget.DbMode) (r : String)
    (hpass : Budget.can_user_afford_this_request
        (some (Budget.estimate_cost_detailed input_tokens est_out model
          pricing now_iso)) db
      = Except.ok (true, r)) :
    Budget.dispatch_after_estimate
        (some (Budget.estimate_cost_detailed input_tokens est_out model
          pricing now_iso)) db
      = Budget.Decision.proceedNoHeaders := by
  unfold Budget.dispatch_after_estimate
  rw [hpass]
  simp only [Budget.pyGet_total_cost_log_none]

/-- Witness for C8: an admitted request whose estimate came from the
token calculator (unpriced model path), budget check passing. -/
theorem c8_success_response_lacks_cost_headers_witness :
    Budget.can_user_afford_this_request
        (some (Budget.estimate_cost_detailed 5 10 Budget.gpt35Name none
          Budget.emptyStr)) (Budget.DbMode.ok none)
      = Except.ok (true, Budget.noCostMsg)
    ∧ Budget.dispatch_after_estimate
        (some (Budget.estimate_cost_detailed 5 10 Budget.gpt35Name none
          Budget.emptyStr)) (Budget.DbMode.ok none)
      = Budget.Decision.proceedNoHeaders :=
  ⟨rfl, c8_success_response_lacks_cost_headers 5 10 Budget.gpt35Name
    Budget.emptyStr none (Budget.DbMode.ok none) Budget.noCostMsg rfl⟩

/-- C10: whenever the pre-flight estimate is absent or its
`total_cost_usd` is not positive, the budget check allows the request
with reason `No cost estimated`, and its verdict is independent of the
database — no budget row is consulted, so such requests bypass budget
enforcement even for users with no budget configuration. -/
theorem c10_zero_estimate_bypasses_budget (est : Option Budget.PyDict)
    (db db2 : Budget.DbMode)
    (h : est = none
      ∨ ∃ d, est = some d ∧ Budget.getNum d Budget.totalCostKey 0 ≤ 0) :
    Budget.can_user_afford_this_request est db
      = Except.ok (true, Budget.noCostMsg)
    ∧ Budget.can_user_afford_this_request est db
      = Budget.can_user_afford_this_request est db2 := by
  rcases h with rfl | ⟨d, rfl, hle⟩
  · exact ⟨rfl, rfl⟩
  · have hcond : (d.isEmpty = true ∨ Budget.getNum d Budget.totalCostKey 0 ≤ 0) :=
      Or.inr hle
    constructor
    · simp only [Budget.can_user_afford_this_request, if_pos hcond]
    · simp only [Budget.can_user_afford_this_request, if_pos hcond]

/-- Witness for C10: absent estimate, user with no budget row. -/
theorem c10_zero_estimate_bypasses_budget_witness :
    ((none : Option Budget.PyDict) = none
      ∨ ∃ d, (none : Option Budget.PyDict) = some d
          ∧ Budget.getNum d Budget.totalCostKey 0 ≤ 0)
    ∧ Budget.can_user_afford_this_request none (Budget.DbMode.ok none)
        = Except.ok (true, Budget.noCostMsg)
    ∧ Budget.can_user_afford_this_request none (Budget.DbMode.ok none)
      = Budget.can_user_afford_this_request none Budget.DbMode.queryFail :=
  ⟨Or.inl rfl,
    c10_zero_estimate_bypasses_budget none (Budget.DbMode.ok none)
      Budget.DbMode.queryFail (Or.inl rfl)⟩

/-- C9 (amended): the estimated output-token count is clamped from
below by `max(50, floor(0.2 * input))` and from above by the larger of
that lower clamp and `min(2000, 3 * input)` — so the spec's
`[0.2 * input, 3 * input]` interval holds only where these clamps fall
inside it, and in particular fails for very short inputs, where the
result is pinned to at least 50. -/
theorem c9_estimate_clamped_bounds (user_idea model : String)
    (input_tokens : ℕ) :
    max 50 ⌊(input_tokens : ℚ) * 0.2⌋
      ≤ Estimator._estimate_response_length user_idea model input_tokens
    ∧ Estimator._estimate_response_length user_idea model input_tokens
      ≤ max (max 50 ⌊(input_tokens : ℚ) * 0.2⌋)
          (min 2000 (3 * (input_tokens : ℤ))) := by
  rw [Estimator._estimate_response_length]
  set B : ℤ := Advisor.pyInt ((input_tokens : ℚ)
    * Estimator._analyze_idea_complexity user_idea input_tokens
    * Estimator._get_model_response_factor model) with hB
  set minr : ℚ := max 50 ((input_tokens : ℚ) * 0.2) with hminr
  set maxr : ℚ := min 2000 ((input_tokens : ℚ) * 3.0) with hmaxr
  set est : ℚ := max minr (min maxr (B : ℚ)) with hest
  have h50minr : (50 : ℚ) ≤ minr := le_max_left _ _
  have hminrest : minr ≤ est := le_max_left _ _
  have hest0 : (0 : ℚ) ≤ est := by
    calc (0 : ℚ) ≤ 50 := by norm_num
    _ ≤ minr := h50minr
    _ ≤ est := hminrest
  rw [Advisor.pyInt_of_nonneg _ hest0]
  have hfminr : ⌊minr⌋ = max 50 ⌊(input_tokens : ℚ) * 0.2⌋ := by
    rw [hminr, Advisor.floor_max_eq]
    norm_num
  have hfmaxr : ⌊maxr⌋ = min 2000 (3 * (input_tokens : ℤ)) := by
    rw [hmaxr, Advisor.floor_min_eq]
    have h3 : ((input_tokens : ℚ) * 3.0) = (((3 * input_tokens : ℤ)) : ℚ) := by
      push_cast
      ring
    rw [h3, Int.floor_intCast]
    norm_num
  constructor
  · rw [← hfminr]
    exact Int.floor_le_floor hminrest
  · have hle : est ≤ max minr maxr :=
      max_le (le_max_left _ _)
        (le_trans (min_le_left _ _) (le_max_right _ _))
    calc ⌊est⌋ ≤ ⌊max minr maxr⌋ := Int.floor_le_floor hle
    _ = max ⌊minr⌋ ⌊maxr⌋ := Advisor.floor_max_eq _ _
    _ = max (max 50 ⌊(input_tokens : ℚ) * 0.2⌋)
          (min 2000 (3 * (input_tokens : ℤ))) := by rw [hfminr, hfmaxr]

/-- C9 counterexample: the very short idea `hi` (1 input token,
model `gpt-3.5-turbo`) yields an estimate of 50 tokens, far outside the
claimed interval `[0.2 * 1, 3.0 * 1]`. -/
theorem c9_counterexample_short_input_exceeds_bound :
    Estimator._estimate_response_length Estimator.ideaHi Budget.gpt35Name 1 = 50
    ∧ ¬ (Estimator._estimate_response_length Estimator.ideaHi
          Budget.gpt35Name 1 ≤ 3 * 1) := by
  have hraw : Estimator.complexity_score_raw Estimator.ideaHi 1 = 1 := by
    decide
  have hfac : Estimator._get_model_response_factor Budget.gpt35Name = 1 := by
    decide
  have hcf : Estimator._analyze_idea_complexity Estimator.ideaHi 1 = 1 := by
    rw [Estimator._analyze_idea_complexity, hraw]
    norm_num [max_def, min_def]
  have hv : Estimator._estimate_response_length Estimator.ideaHi
      Budget.gpt35Name 1 = 50 := by
    rw [Estimator._estimate_response_length, hcf, hfac]
    norm_num [Advisor.pyInt, Advisor.rat_floor_eq_floor, max_def, min_def]
  refine ⟨hv, ?_⟩
  rw [hv]
  decide

/-- C7: once the generator observes a sentinel message (type
`__COMPLETE__` or `__CLOSE__`) after a sentinel-free, connected prefix,
the subscriber receives exactly the forwarded prefix followed by one
final complete frame, and nothing that is published after the sentinel
is ever sent — the output does not depend on the suffix. -/
theorem c7_sentinel_terminates_stream (pre post : List Events.RawMsg)
    (s : Events.RawMsg) (hs : s.disconnected = false)
    (hstype : s.ptype = some Events.completeSentinel
      ∨ s.ptype = some Events.closeSentinel)
    (hpre : ∀ m ∈ pre, m.disconnected = false
      ∧ ¬ (m.ptype = some Events.completeSentinel
        ∨ m.ptype = some Events.closeSentinel)) :
    Events.event_generator (pre ++ s :: post)
      = pre.map (fun m => Events.Frame.data m.raw)
          ++ [Events.Frame.completeEvent]
    ∧ ∀ post2, Events.event_generator (pre ++ s :: post)
      = Events.event_generator (pre ++ s :: post2) := by
  have hgen : ∀ q : List Events.RawMsg, Events.event_generator (pre ++ s :: q)
      = pre.map (fun m => Events.Frame.data m.raw)
          ++ [Events.Frame.completeEvent] := by
    intro q
    induction pre with
    | nil =>
      simp [Events.event_generator, hs, hstype]
    | cons m ms ih =>
      rcases hpre m (by simp) with ⟨hd, hns⟩
      have ih' := ih (fun x hx => hpre x (List.mem_cons_of_mem m hx))
      simp [Events.event_generator, hd, hns, ih']
  exact ⟨hgen post, fun post2 => (hgen post).trans (hgen post2).symm⟩

/-- Witness for C7: one normal event, the `__COMPLETE__` sentinel, then
a message published after the sentinel that is never delivered. -/
theorem c7_sentinel_terminates_stream_witness :
    Events.event_generator
        [⟨false, "e1", some "agent_started"⟩,
         ⟨false, "done", some "__COMPLETE__"⟩,
         ⟨false, "late", some "final_result"⟩]
      = [Events.Frame.data "e1", Events.Frame.completeEvent] := by
  have h := c7_sentinel_terminates_stream
    [⟨false, "e1", some "agent_started"⟩]
    [⟨false, "late", some "final_result"⟩]
    ⟨false, "done", some "__COMPLETE__"⟩
    (by decide) (by decide) (by decide)
  simpa using h.1

namespace Crew

mutual
/-- A nested (non-top-level) wrapped invocation publishes nothing and
leaves the `ContextVar` untouched. -/
theorem runWrapped_nested (request_id : String) :
    ∀ (s : WrapState) (c : Call), s.current_agent_invocation.isSome →
      (runWrapped request_id s c).events = s.events
      ∧ (runWrapped request_id s c).current_agent_invocation
          = s.current_agent_invocation
  | s, .call children, h => by
    have htop : s.current_agent_invocation.isNone = false := by
      rcases hx : s.current_agent_invocation with _ | v
      · rw [hx] at h
        simp at h
      · simp
    have h' : ({ s with next_uuid := s.next_uuid + 1 }
        : WrapState).current_agent_invocation.isSome := by
      simpa using h
    have hrec := runBody_nested request_id
      { s with next_uuid := s.next_uuid + 1 } children h'
    simp only [runWrapped, htop, Bool.false_eq_true, if_false]
    simpa using hrec

/-- Running a body while an invocation is in flight publishes nothing
and leaves the `ContextVar` untouched. -/
theorem runBody_nested (request_id : String) :
    ∀ (s : WrapState) (cs : CallList), s.current_agent_invocation.isSome →
      (runBody request_id s cs).events = s.events
      ∧ (runBody request_id s cs).current_agent_invocation
          = s.current_agent_invocation
  | _, .nil, _ => ⟨rfl, rfl⟩
  | s, .cons c cs, h => by
    have h1 := runWrapped_nested request_id s c h
    have hsome2 : (runWrapped request_id s c).current_agent_invocation.isSome := by
      rw [h1.2]
      exact h
    have h2 := runBody_nested request_id (runWrapped request_id s c) cs hsome2
    simp only [runBody]
    exact ⟨h2.1.trans h1.1, h2.2.trans h1.2⟩
end

end Crew

/-- C5 (amended): one top-level wrapped crew invocation publishes
exactly one `agent_started` followed by one `agent_finished` for its
request id, no matter how many nested wrapped sub-calls its body
performs — the nested calls publish nothing — and the `ContextVar` is
restored afterwards. -/
theorem c5_single_pair_per_top_level_invocation (request_id : String)
    (hrid : request_id.isEmpty = false) (n : ℕ) (children : Crew.CallList) :
    (Crew.runWrapped request_id ⟨none, n, []⟩ (Crew.Call.call children)).events
      = [⟨Crew.agentStartedType, request_id, n⟩,
         ⟨Crew.agentFinishedType, request_id, n⟩]
    ∧ (Crew.runWrapped request_id ⟨none, n, []⟩
        (Crew.Call.call children)).current_agent_invocation = none := by
  have hnest := Crew.runBody_nested request_id
    ⟨some n, n + 1, [⟨Crew.agentStartedType, request_id, n⟩]⟩ children (by simp)
  simp only [Crew.runWrapped, Option.isNone_none, if_true, hrid,
    Bool.false_eq_true, if_false, List.nil_append]
  rw [hnest.1]
  exact ⟨rfl, trivial⟩

/-- Witness for C5: a top-level invocation with one nested sub-call. -/
theorem c5_single_pair_per_top_level_invocation_witness :
    ((Crew.reqOne : String).isEmpty = false)
    ∧ (Crew.runWrapped Crew.reqOne ⟨none, 0, []⟩
        (Crew.Call.call (Crew.CallList.cons (Crew.Call.call Crew.CallList.nil)
          Crew.CallList.nil))).events
      = [⟨Crew.agentStartedType, Crew.reqOne, 0⟩,
         ⟨Crew.agentFinishedType, Crew.reqOne, 0⟩]
    ∧ (Crew.runWrapped Crew.reqOne ⟨none, 0, []⟩
        (Crew.Call.call (Crew.CallList.cons (Crew.Call.call Crew.CallList.nil)
          Crew.CallList.nil))).current_agent_invocation = none :=
  ⟨by decide,
    (c5_single_pair_per_top_level_invocation Crew.reqOne (by decide) 0
      (Crew.CallList.cons (Crew.Call.call Crew.CallList.nil)
        Crew.CallList.nil)).1,
    (c5_single_pair_per_top_level_invocation Crew.reqOne (by decide) 0
      (Crew.CallList.cons (Crew.Call.call Crew.CallList.nil)
        Crew.CallList.nil)).2⟩

/-- C5 counterexample: the advisor graph's happy path
(`build_graph`: market → finance → product → summary) runs four
sequential top-level crew invocations for one external request id, so
four `agent_started` events are published on that request's channel,
not one. -/
theorem c5_counterexample_multiple_started_per_request :
    ((Crew.runBody Crew.reqOne ⟨none, 0, []⟩
        Crew.advisorGraphCrewCalls).events.countP
      (fun e => e.etype == Crew.agentStartedType)) = 4
    ∧ ((Crew.runBody Crew.reqOne ⟨none, 0, []⟩
        Crew.advisorGraphCrewCalls).events.countP
      (fun e => e.etype == Crew.agentStartedType)) ≠ 1 :=
  ⟨by decide, by decide⟩
